import Mathlib

/-!
Verification of the analysis-history ledger and session-state lifecycle of
the `icc` dashboard (files `app.py`, `test_app.py`,
`project_src/utils/session.py`).

Session state (`st.session_state`) is modelled as an insertion-ordered
association list from string keys to values, the way a Python dict behaves.
History entries are Python dicts whose values are strings or `None`; they
are modelled as association lists from string keys to `EVal`.
-/

/-- A value stored in a history-entry dict: either `None` or a string. -/
inductive EVal where
  | none
  | str (s : String)
  deriving DecidableEq, Repr

/-- A history entry: a Python dict with string keys, insertion-ordered. -/
abbrev Entry := List (String × EVal)

/-- A value stored in `st.session_state`.  `obj` stands for opaque Python
objects (dataframes, agents, vector-db handles, ...) whose identity is
irrelevant to the ledger; they are truthy like Python objects. -/
inductive Value where
  | none
  | bool (b : Bool)
  | str (s : String)
  | entries (es : List Entry)
  | obj (n : Nat)
  deriving DecidableEq, Repr

/-- `st.session_state`: a Python dict from string keys to values. -/
abbrev Dict := List (String × Value)

/-- First-match lookup, i.e. Python `d[k]` / `d.get(k)` on a dict with
unique keys. -/
def dlookup (k : String) : Dict → Option Value
  | [] => Option.none
  | (k', v) :: rest => if k = k' then some v else dlookup k rest

/-- Python `k in d`. -/
def dcontains (k : String) (s : Dict) : Bool :=
  (dlookup k s).isSome

/-- Python `d[k] = v`: replace in place if the key exists, else append
(dicts preserve insertion order and new keys go last). -/
def dset (k : String) (v : Value) : Dict → Dict
  | [] => [(k, v)]
  | (k', v') :: rest => if k' = k then (k, v) :: rest else (k', v') :: dset k v rest

/-- Python `del d[k]`. -/
def derase (k : String) : Dict → Dict
  | [] => []
  | (k', v') :: rest => if k' = k then derase k rest else (k', v') :: derase k rest

/-- Lookup inside a history entry, i.e. `entry[k]` up to the raised
`KeyError` which the callers model explicitly. -/
def elookup (k : String) : Entry → Option EVal
  | [] => Option.none
  | (k', v) :: rest => if k = k' then some v else elookup k rest

/-- Python truthiness of a session-state value. -/
def truthy : Value → Bool
  | Value.none => false
  | Value.bool b => b
  | Value.str s => s != ""
  | Value.entries es => !es.isEmpty
  | Value.obj _ => true

/-- `datetime.now()`: a local wall-clock instant, down to microseconds. -/
structure DateTime where
  year : Nat
  month : Nat
  day : Nat
  hour : Nat
  minute : Nat
  second : Nat
  microsecond : Nat
  deriving DecidableEq, Repr

/-- Decimal digit as a character. -/
def digitChar (n : Nat) : Char := Char.ofNat (48 + n)

/-- Zero-padded two-digit decimal rendering (strftime `%m`, `%d`, `%H`,
`%M`, `%S` for in-range values). -/
def pad2 (n : Nat) : String :=
  String.mk [digitChar (n / 10 % 10), digitChar (n % 10)]

/-- Zero-padded four-digit decimal rendering (strftime `%Y` for years
below 10000). -/
def pad4 (n : Nat) : String :=
  String.mk [digitChar (n / 1000 % 10), digitChar (n / 100 % 10),
             digitChar (n / 10 % 10), digitChar (n % 10)]

/-- `datetime.now().strftime("%Y-%m-%d %H:%M:%S")`: second resolution,
the microsecond component is not rendered. -/
def formatTimestamp (t : DateTime) : String :=
  pad4 t.year ++ "-" ++ pad2 t.month ++ "-" ++ pad2 t.day ++ " " ++
  pad2 t.hour ++ ":" ++ pad2 t.minute ++ ":" ++ pad2 t.second

/-- `None`-or-string argument as an entry value (`session.py` stores the
argument as given, `None` included). -/
def optEVal : Option String → EVal
  | some s => EVal.str s
  | Option.none => EVal.none

/-- The entry dict built by `session.py`'s `add_to_history` (lines
150-157): all six keys are always present; absent optional arguments are
stored as `None`. -/
def mkSessEntry (t : DateTime) (entry_type file_name : String)
    (analysis_type query response : Option String) : Entry :=
  [("timestamp", EVal.str (formatTimestamp t)),
   ("type", EVal.str entry_type),
   ("file", EVal.str file_name),
   ("analysis_type", optEVal analysis_type),
   ("query", optEVal query),
   ("response", optEVal response)]

/-- Arguments of a call to `app.py`'s `add_to_history` (lines 248-257):
every parameter may be omitted (`Option.none` models an omitted
argument, resolved to the Python default). -/
structure AppCall where
  entry_type : Option String := Option.none
  filename : Option String := Option.none
  file_name : Option String := Option.none
  file_type : Option String := Option.none
  model : Option String := Option.none
  analysis_type : Option String := Option.none
  query : Option String := Option.none
  response : Option String := Option.none
  deriving DecidableEq, Repr

/-- Python `filename or file_name` (line 265): first operand if truthy
(non-`None`, non-empty), else second. -/
def pyOr (a b : Option String) : Option String :=
  match a with
  | some s => if s = "" then b else some s
  | Option.none => b

/-- One key of the dict comprehension `{k: v for k, v in entry.items()
if v is not None}` (line 274): `None`-valued keys are dropped. -/
def optFrag (k : String) (v : Option EVal) : Entry :=
  match v with
  | some v => [(k, v)]
  | Option.none => []

/-- The entry dict built by `app.py`'s `add_to_history` (lines 262-274)
after the `None`-filtering comprehension: `timestamp` and `type` are
always present (`entry_type` defaults to `"Data Analysis"`), every other
key is present only when its value is not `None`. -/
def mkAppEntry (t : DateTime) (c : AppCall) : Entry :=
  [("timestamp", EVal.str (formatTimestamp t)),
   ("type", EVal.str (c.entry_type.getD "Data Analysis"))]
  ++ optFrag "file" ((pyOr c.filename c.file_name).map EVal.str)
  ++ optFrag "file_type" (c.file_type.map EVal.str)
  ++ optFrag "model" (c.model.map EVal.str)
  ++ optFrag "analysis_type" (c.analysis_type.map EVal.str)
  ++ optFrag "query" (c.query.map EVal.str)
  ++ optFrag "response" (c.response.map EVal.str)

/-- Shared tail of all three `add_to_history` variants: lazily create
`history` as `[]` if absent, then `st.session_state.history.append(entry)`.
Appending to a non-list `history` value is Python's `AttributeError`. -/
def appendHistory (e : Entry) (s : Dict) : Except String Dict :=
  let s1 := if dcontains "history" s then s else dset "history" (Value.entries []) s
  match dlookup "history" s1 with
  | some (Value.entries es) =>
      Except.ok (dset "history" (Value.entries (es ++ [e])) s1)
  | _ => Except.error "AttributeError"

/-- `session.py` lines 143-158: `add_to_history(entry_type, file_name,
analysis_type=None, query=None, response=None)`. -/
def sessionAddToHistory (t : DateTime) (entry_type file_name : String)
    (analysis_type query response : Option String) (s : Dict) : Except String Dict :=
  appendHistory (mkSessEntry t entry_type file_name analysis_type query response) s

/-- `app.py` lines 248-276: `add_to_history` with every parameter
optional. -/
def appAddToHistory (t : DateTime) (c : AppCall) (s : Dict) : Except String Dict :=
  appendHistory (mkAppEntry t c) s

/-- A call to `session.py`'s `add_to_history` at the call-site level:
`entry_type` and `file_name` are required positional parameters, so a
call omitting either raises `TypeError` before the body runs. -/
structure SessRawCall where
  entry_type : Option String := Option.none
  file_name : Option String := Option.none
  analysis_type : Option String := Option.none
  query : Option String := Option.none
  response : Option String := Option.none
  deriving DecidableEq, Repr

def sessionCallAddToHistory (t : DateTime) (c : SessRawCall) (s : Dict) :
    Except String Dict :=
  match c.entry_type, c.file_name with
  | some et, some fn =>
      sessionAddToHistory t et fn c.analysis_type c.query c.response s
  | _, _ => Except.error "TypeError: add_to_history missing required argument"

/-- The entry dict built by `test_app.py`'s `add_to_history` (lines
11-17): keys `timestamp`, `type`, `filename`, `model`, `analysis_type`,
no `None` filtering. -/
def mkTestEntry (t : DateTime) (entry_type filename model analysis_type : String) : Entry :=
  [("timestamp", EVal.str (formatTimestamp t)),
   ("type", EVal.str entry_type),
   ("filename", EVal.str filename),
   ("model", EVal.str model),
   ("analysis_type", EVal.str analysis_type)]

/-- A call to `test_app.py`'s `add_to_history`: all four parameters are
required, so omitting any raises `TypeError`. -/
structure TestRawCall where
  entry_type : Option String := Option.none
  filename : Option String := Option.none
  model : Option String := Option.none
  analysis_type : Option String := Option.none
  deriving DecidableEq, Repr

def testCallAddToHistory (t : DateTime) (c : TestRawCall) (s : Dict) :
    Except String Dict :=
  match c.entry_type, c.filename, c.model, c.analysis_type with
  | some et, some fn, some mo, some an =>
      appendHistory (mkTestEntry t et fn mo an) s
  | _, _, _, _ => Except.error "TypeError: add_to_history missing required argument"

/-- Rendering of one entry by `session.py`'s `display_history` loop body
(lines 167-177): `entry['timestamp']`, `entry['type']`, `entry['file']`,
`entry['analysis_type']`, `entry['query']`, `entry['response']` are all
accessed with `[]`, so a missing key raises `KeyError`. -/
def sessionRenderEntry (e : Entry) : Except String Entry :=
  if (elookup "timestamp" e).isSome && (elookup "type" e).isSome &&
     (elookup "file" e).isSome && (elookup "analysis_type" e).isSome &&
     (elookup "query" e).isSome && (elookup "response" e).isSome then
    Except.ok e
  else Except.error "KeyError"

/-- Rendering of one entry by `app.py`'s `display_history` loop body
(lines 198-204): the expander header reads `entry['timestamp']` then
`entry['file']` with `[]`; everything else uses `.get`. -/
def appRenderEntry (e : Entry) : Except String Entry :=
  if (elookup "timestamp" e).isSome then
    if (elookup "file" e).isSome then Except.ok e
    else Except.error "KeyError: 'file'"
  else Except.error "KeyError: 'timestamp'"

/-- The `for entry in reversed(...)` loop applied to an already-reversed
list: renders entries in order, aborting at the first raised `KeyError`. -/
def renderEach (render : Entry → Except String Entry) :
    List Entry → Except String (List Entry)
  | [] => Except.ok []
  | e :: rest =>
    match render e with
    | Except.ok r =>
      match renderEach render rest with
      | Except.ok rs => Except.ok (r :: rs)
      | Except.error err => Except.error err
    | Except.error err => Except.error err

/-- `session.py` lines 160-177: `display_history`.  Returns the state
after the call (the function never writes session state) together with
the sequence of entries rendered, or the exception raised. -/
def sessionDisplayHistory (s : Dict) : Dict × Except String (List Entry) :=
  (s,
   match dlookup "history" s with
   | Option.none => Except.ok []
   | some v =>
     if truthy v then
       match v with
       | Value.entries es => renderEach sessionRenderEntry es.reverse
       | _ => Except.error "TypeError"
     else Except.ok [])

/-- `app.py` lines 194-206: `display_history`.  Same shape: the `else`
branch prints "No analysis history available." and renders no entry. -/
def appDisplayHistory (s : Dict) : Dict × Except String (List Entry) :=
  (s,
   match dlookup "history" s with
   | Option.none => Except.ok []
   | some v =>
     if truthy v then
       match v with
       | Value.entries es => renderEach appRenderEntry es.reverse
       | _ => Except.error "TypeError"
     else Except.ok [])

/-- `if key not in st.session_state: st.session_state[key] = default`. -/
def setIfAbsent (k : String) (v : Value) (s : Dict) : Dict :=
  if dcontains k s then s else dset k v s

/-- `session.py` lines 7-79: `init_session_state`, each default applied
in source order (`history` is checked twice, at lines 32 and 72). -/
def initSessionState (s : Dict) : Dict :=
  let s := setIfAbsent "openai_api_key" Value.none s
  let s := setIfAbsent "qdrant_api_key" Value.none s
  let s := setIfAbsent "qdrant_url" Value.none s
  let s := setIfAbsent "vector_db" Value.none s
  let s := setIfAbsent "legal_team" Value.none s
  let s := setIfAbsent "knowledge_base" Value.none s
  let s := setIfAbsent "df" Value.none s
  let s := setIfAbsent "df_origin" Value.none s
  let s := setIfAbsent "data_agent" Value.none s
  let s := setIfAbsent "history" (Value.entries []) s
  let s := setIfAbsent "analysis_mode" Value.none s
  let s := setIfAbsent "target_Y" Value.none s
  let s := setIfAbsent "target_selected" (Value.bool false) s
  let s := setIfAbsent "contain_null" Value.none s
  let s := setIfAbsent "all_numeric" Value.none s
  let s := setIfAbsent "to_perform_pca" Value.none s
  let s := setIfAbsent "model_list" Value.none s
  let s := setIfAbsent "model1" Value.none s
  let s := setIfAbsent "model2" Value.none s
  let s := setIfAbsent "model3" Value.none s
  let s := setIfAbsent "filled_df" Value.none s
  let s := setIfAbsent "encoded_df" Value.none s
  let s := setIfAbsent "df_cleaned1" Value.none s
  let s := setIfAbsent "df_cleaned2" Value.none s
  let s := setIfAbsent "df_pca" Value.none s
  let s := setIfAbsent "current_page" (Value.str "Home Page") s
  let s := setIfAbsent "history" (Value.entries []) s
  let s := setIfAbsent "initialized" (Value.bool true) s
  let s := setIfAbsent "start_training" (Value.bool false) s
  let s := setIfAbsent "button_clicked" (Value.bool false) s
  s

/-- `for key in list(st.session_state.keys()): del st.session_state[key]`
(`session.py` lines 139-140). -/
def delAllKeys (s : Dict) : Dict :=
  (s.map Prod.fst).foldl (fun st k => derase k st) s

/-- `session.py` lines 137-141: `clear_session`. -/
def clearSession (s : Dict) : Dict :=
  initSessionState (delAllKeys s)

/-- `if var in st.session_state: del st.session_state[var]`, the loop
body shared by `reset_model_state` and `reset_data_state`. -/
def resetStep (st : Dict) (v : String) : Dict :=
  if dcontains v st then derase v st else st

/-- The `model_vars` list of `session.py` line 181. -/
def model_vars : List String :=
  ["model_list", "model1", "model2", "model3", "start_training", "button_clicked"]

/-- The `data_vars` list of `session.py` line 189. -/
def data_vars : List String :=
  ["df", "df_origin", "filled_df", "encoded_df", "df_cleaned1", "df_cleaned2", "df_pca"]

/-- `session.py` lines 179-185: `reset_model_state`. -/
def resetModelState (s : Dict) : Dict :=
  model_vars.foldl resetStep s

/-- `session.py` lines 187-193: `reset_data_state`. -/
def resetDataState (s : Dict) : Dict :=
  data_vars.foldl resetStep s

/-- Arguments of one call to `session.py`'s `add_to_history` supplying
both required parameters. -/
structure SessCall where
  entry_type : String
  file_name : String
  analysis_type : Option String := Option.none
  query : Option String := Option.none
  response : Option String := Option.none
  deriving DecidableEq, Repr

/-- A sequence of `session.py` `add_to_history` calls, each at its own
wall-clock instant. -/
def runSessionCalls : List (DateTime × SessCall) → Dict → Except String Dict
  | [], s => Except.ok s
  | (t, c) :: rest, s =>
    match sessionAddToHistory t c.entry_type c.file_name c.analysis_type c.query c.response s with
    | Except.ok s' => runSessionCalls rest s'
    | Except.error e => Except.error e

/-- A sequence of `app.py` `add_to_history` calls. -/
def runAppCalls : List (DateTime × AppCall) → Dict → Except String Dict
  | [], s => Except.ok s
  | (t, c) :: rest, s =>
    match appAddToHistory t c s with
    | Except.ok s' => runAppCalls rest s'
    | Except.error e => Except.error e

/-- The ledger as read from session state (empty when absent). -/
def entriesOf (s : Dict) : List Entry :=
  match dlookup "history" s with
  | some (Value.entries es) => es
  | _ => []

/-- The `history` key is absent or holds a list, the shape every state
reachable in the application satisfies. -/
def goodHist (s : Dict) : Prop :=
  dlookup "history" s = Option.none ∨ ∃ es, dlookup "history" s = some (Value.entries es)

/-- A fresh session: no entry has been recorded yet (the `history` key is
absent, or was initialized to the empty list). -/
def freshHist (s : Dict) : Prop :=
  dlookup "history" s = Option.none ∨ dlookup "history" s = some (Value.entries [])

/-- A concrete wall-clock instant used to instantiate theorems. -/
def sampleTime : DateTime := ⟨2024, 3, 15, 10, 30, 45, 123456⟩

/-- The same instant with a different microsecond component. -/
def sampleTime2 : DateTime := ⟨2024, 3, 15, 10, 30, 45, 999999⟩

/-! ### Dictionary lemmas -/

theorem dlookup_dset_self (k : String) (v : Value) (s : Dict) :
    dlookup k (dset k v s) = some v := by
  induction s with
  | nil => simp [dset, dlookup]
  | cons p rest ih =>
    obtain ⟨k', v'⟩ := p
    by_cases h : k' = k
    · subst h
      simp [dset, dlookup]
    · have h' : ¬k = k' := fun e => h e.symm
      simp only [dset, if_neg h, dlookup, if_neg h']
      exact ih

theorem dlookup_dset_ne (k k' : String) (v : Value) (s : Dict) (h : k' ≠ k) :
    dlookup k' (dset k v s) = dlookup k' s := by
  induction s with
  | nil => simp [dset, dlookup, h]
  | cons p rest ih =>
    obtain ⟨k₀, v₀⟩ := p
    by_cases h0 : k₀ = k
    · subst h0
      simp [dset, dlookup, h]
    · simp only [dset, if_neg h0, dlookup]
      by_cases h1 : k' = k₀ <;> simp [h1, ih]

theorem dlookup_derase_self (k : String) (s : Dict) :
    dlookup k (derase k s) = Option.none := by
  induction s with
  | nil => simp [derase, dlookup]
  | cons p rest ih =>
    obtain ⟨k', v'⟩ := p
    by_cases h : k' = k
    · simp [derase, h, ih]
    · have h' : ¬k = k' := fun e => h e.symm
      simp only [derase, if_neg h, dlookup, if_neg h']
      exact ih

theorem dlookup_derase_ne (k k' : String) (s : Dict) (h : k' ≠ k) :
    dlookup k' (derase k s) = dlookup k' s := by
  induction s with
  | nil => simp [derase]
  | cons p rest ih =>
    obtain ⟨k₀, v₀⟩ := p
    by_cases h0 : k₀ = k
    · subst h0
      simp [derase, dlookup, h, ih]
    · simp only [derase, if_neg h0, dlookup]
      by_cases h1 : k' = k₀ <;> simp [h1, ih]

theorem mem_derase (p : String × Value) (k : String) (s : Dict) :
    p ∈ derase k s ↔ p ∈ s ∧ p.1 ≠ k := by
  induction s with
  | nil => simp [derase]
  | cons q rest ih =>
    obtain ⟨k', v'⟩ := q
    by_cases h : k' = k
    · subst h
      have hd : derase k' ((k', v') :: rest) = derase k' rest := by
        simp [derase]
      rw [hd, ih]
      simp only [List.mem_cons]
      constructor
      · rintro ⟨hp, hne⟩
        exact ⟨Or.inr hp, hne⟩
      · rintro ⟨hp | hp, hne⟩
        · exact absurd (congrArg Prod.fst hp) hne
        · exact ⟨hp, hne⟩
    · simp only [derase, if_neg h, List.mem_cons, ih]
      constructor
      · rintro (hp | ⟨hp, hne⟩)
        · refine ⟨Or.inl hp, ?_⟩
          rw [congrArg Prod.fst hp]
          exact h
        · exact ⟨Or.inr hp, hne⟩
      · rintro ⟨hp | hp, hne⟩
        · exact Or.inl hp
        · exact Or.inr ⟨hp, hne⟩

theorem foldl_derase_nil (ks : List String) (st : Dict)
    (h : ∀ p ∈ st, p.1 ∈ ks) :
    ks.foldl (fun d k => derase k d) st = [] := by
  induction ks generalizing st with
  | nil =>
    cases st with
    | nil => rfl
    | cons p rest => exact absurd (h p (List.mem_cons_self p rest)) (by simp)
  | cons k ks ih =>
    simp only [List.foldl_cons]
    apply ih
    intro p hp
    rw [mem_derase] at hp
    have h0 := h p hp.1
    rw [List.mem_cons] at h0
    rcases h0 with h0 | h0
    · exact absurd h0 hp.2
    · exact h0

theorem delAllKeys_eq_nil (s : Dict) : delAllKeys s = [] :=
  foldl_derase_nil (s.map Prod.fst) s
    (fun _ hp => List.mem_map_of_mem Prod.fst hp)

/-! ### Appending to the history ledger -/

theorem entriesOf_of_lookup {s : Dict} {es : List Entry}
    (h : dlookup "history" s = some (Value.entries es)) : entriesOf s = es := by
  simp [entriesOf, h]

theorem appendHistory_ok (e : Entry) (s : Dict) (h : goodHist s) :
    ∃ s', appendHistory e s = Except.ok s' ∧
      dlookup "history" s' = some (Value.entries (entriesOf s ++ [e])) := by
  rcases h with h | ⟨es, h⟩
  · have hc : dcontains "history" s = false := by
      simp [dcontains, h]
    have h1 : dlookup "history" (dset "history" (Value.entries []) s) =
        some (Value.entries []) := dlookup_dset_self _ _ _
    refine ⟨dset "history" (Value.entries [e]) (dset "history" (Value.entries []) s), ?_, ?_⟩
    · simp [appendHistory, hc, h1]
    · simp only [entriesOf, h, List.nil_append]
      exact dlookup_dset_self _ _ _
  · have hc : dcontains "history" s = true := by
      simp [dcontains, h]
    refine ⟨dset "history" (Value.entries (es ++ [e])) s, ?_, ?_⟩
    · simp [appendHistory, hc, h]
    · rw [entriesOf_of_lookup h]
      exact dlookup_dset_self _ _ _

theorem goodHist_of_lookup {s : Dict} {es : List Entry}
    (h : dlookup "history" s = some (Value.entries es)) : goodHist s :=
  Or.inr ⟨es, h⟩

theorem runSessionCalls_ok (cs : List (DateTime × SessCall)) (s : Dict)
    (h : goodHist s) :
    ∃ s', runSessionCalls cs s = Except.ok s' ∧ goodHist s' ∧
      entriesOf s' = entriesOf s ++
        cs.map (fun p => mkSessEntry p.1 p.2.entry_type p.2.file_name
          p.2.analysis_type p.2.query p.2.response) := by
  induction cs generalizing s with
  | nil => exact ⟨s, rfl, h, by simp⟩
  | cons p rest ih =>
    obtain ⟨t, c⟩ := p
    obtain ⟨s1, hs1, hl1⟩ :=
      appendHistory_ok (mkSessEntry t c.entry_type c.file_name c.analysis_type c.query c.response) s h
    obtain ⟨s', hs', hg', hl'⟩ := ih s1 (goodHist_of_lookup hl1)
    refine ⟨s', ?_, hg', ?_⟩
    · simp only [runSessionCalls, sessionAddToHistory] at hs1 ⊢
      rw [hs1]
      exact hs'
    · rw [hl', entriesOf_of_lookup hl1]
      simp

theorem runAppCalls_ok (cs : List (DateTime × AppCall)) (s : Dict)
    (h : goodHist s) :
    ∃ s', runAppCalls cs s = Except.ok s' ∧ goodHist s' ∧
      entriesOf s' = entriesOf s ++ cs.map (fun p => mkAppEntry p.1 p.2) := by
  induction cs generalizing s with
  | nil => exact ⟨s, rfl, h, by simp⟩
  | cons p rest ih =>
    obtain ⟨t, c⟩ := p
    obtain ⟨s1, hs1, hl1⟩ := appendHistory_ok (mkAppEntry t c) s h
    obtain ⟨s', hs', hg', hl'⟩ := ih s1 (goodHist_of_lookup hl1)
    refine ⟨s', ?_, hg', ?_⟩
    · simp only [runAppCalls, appAddToHistory] at hs1 ⊢
      rw [hs1]
      exact hs'
    · rw [hl', entriesOf_of_lookup hl1]
      simp

/-! ### Rendering lemmas -/

theorem sessionRenderEntry_mk (t : DateTime) (et fn : String)
    (a q r : Option String) :
    sessionRenderEntry (mkSessEntry t et fn a q r) = Except.ok (mkSessEntry t et fn a q r) := by
  simp [sessionRenderEntry, mkSessEntry, elookup]

theorem elookup_timestamp_mkAppEntry (t : DateTime) (c : AppCall) :
    elookup "timestamp" (mkAppEntry t c) = some (EVal.str (formatTimestamp t)) := by
  simp [mkAppEntry, elookup]

theorem elookup_file_mkAppEntry (t : DateTime) (c : AppCall) {f : String}
    (h : pyOr c.filename c.file_name = some f) :
    elookup "file" (mkAppEntry t c) = some (EVal.str f) := by
  simp [mkAppEntry, elookup, h, optFrag]

theorem appRenderEntry_mk (t : DateTime) (c : AppCall)
    (h : (pyOr c.filename c.file_name).isSome) :
    appRenderEntry (mkAppEntry t c) = Except.ok (mkAppEntry t c) := by
  obtain ⟨f, hf⟩ := Option.isSome_iff_exists.mp h
  simp [appRenderEntry, elookup_timestamp_mkAppEntry,
    elookup_file_mkAppEntry t c hf]

theorem renderEach_ok (render : Entry → Except String Entry) (l : List Entry)
    (h : ∀ e ∈ l, render e = Except.ok e) : renderEach render l = Except.ok l := by
  induction l with
  | nil => rfl
  | cons e rest ih =>
    have he := h e (List.mem_cons_self e rest)
    have hr := ih (fun e' he' => h e' (List.mem_cons_of_mem e he'))
    simp [renderEach, he, hr]

/-! ### Display lemmas -/

theorem sessionDisplay_of_good (s : Dict) (hg : goodHist s)
    (hr : ∀ e ∈ entriesOf s, sessionRenderEntry e = Except.ok e) :
    (sessionDisplayHistory s).2 = Except.ok (entriesOf s).reverse := by
  rcases hg with h | ⟨es, h⟩
  · simp [sessionDisplayHistory, h, entriesOf]
  · rw [entriesOf_of_lookup h] at hr ⊢
    cases es with
    | nil => simp [sessionDisplayHistory, h, truthy]
    | cons e rest =>
      simp only [sessionDisplayHistory, h, truthy, List.isEmpty_cons,
        Bool.not_false, if_true]
      exact renderEach_ok _ _ (fun e' he' => hr e' (List.mem_reverse.mp he'))

theorem appDisplay_of_good (s : Dict) (hg : goodHist s)
    (hr : ∀ e ∈ entriesOf s, appRenderEntry e = Except.ok e) :
    (appDisplayHistory s).2 = Except.ok (entriesOf s).reverse := by
  rcases hg with h | ⟨es, h⟩
  · simp [appDisplayHistory, h, entriesOf]
  · rw [entriesOf_of_lookup h] at hr ⊢
    cases es with
    | nil => simp [appDisplayHistory, h, truthy]
    | cons e rest =>
      simp only [appDisplayHistory, h, truthy, List.isEmpty_cons,
        Bool.not_false, if_true]
      exact renderEach_ok _ _ (fun e' he' => hr e' (List.mem_reverse.mp he'))

theorem goodHist_of_fresh {s : Dict} (h : freshHist s) : goodHist s := by
  rcases h with h | h
  · exact Or.inl h
  · exact Or.inr ⟨[], h⟩

theorem entriesOf_of_fresh {s : Dict} (h : freshHist s) : entriesOf s = [] := by
  rcases h with h | h <;> simp [entriesOf, h]

/-! ### Claim theorems -/

/-- C1 (counterexample): one call to `app.py`'s `add_to_history` with no
argument supplied records exactly one entry, but `app.py`'s
`display_history` then raises `KeyError: 'file'` instead of enumerating
it, so listing does not return the recorded entries. -/
theorem history_roundtrip_counterexample :
    runAppCalls [(sampleTime,
      ⟨Option.none, Option.none, Option.none, Option.none,
       Option.none, Option.none, Option.none, Option.none⟩)] [] =
      Except.ok [("history", Value.entries
        [[("timestamp", EVal.str (formatTimestamp sampleTime)),
          ("type", EVal.str "Data Analysis")]])] ∧
    (appDisplayHistory [("history", Value.entries
        [[("timestamp", EVal.str (formatTimestamp sampleTime)),
          ("type", EVal.str "Data Analysis")]])]).2 =
      Except.error "KeyError: 'file'" :=
  ⟨rfl, rfl⟩

/-- C1 (amended): from a fresh session, `session.py`'s `display_history`
enumerates exactly the entries recorded by `session.py`'s
`add_to_history`, most-recent-first, with nothing lost, duplicated or
reordered; `app.py`'s pair satisfies the same property provided every
call supplied a truthy `filename` or `file_name`. -/
theorem history_roundtrip :
    (∀ (cs : List (DateTime × SessCall)) (s : Dict), freshHist s →
      ∃ s', runSessionCalls cs s = Except.ok s' ∧
        (sessionDisplayHistory s').2 = Except.ok
          (cs.map (fun p => mkSessEntry p.1 p.2.entry_type p.2.file_name
            p.2.analysis_type p.2.query p.2.response)).reverse)
    ∧
    (∀ (cs : List (DateTime × AppCall)) (s : Dict), freshHist s →
      (∀ p ∈ cs, (pyOr p.2.filename p.2.file_name).isSome = true) →
      ∃ s', runAppCalls cs s = Except.ok s' ∧
        (appDisplayHistory s').2 = Except.ok
          (cs.map (fun p => mkAppEntry p.1 p.2)).reverse) := by
  constructor
  · intro cs s hf
    obtain ⟨s', hrun, hg, hl⟩ := runSessionCalls_ok cs s (goodHist_of_fresh hf)
    rw [entriesOf_of_fresh hf, List.nil_append] at hl
    refine ⟨s', hrun, ?_⟩
    rw [sessionDisplay_of_good s' hg, hl]
    intro e he
    rw [hl] at he
    obtain ⟨p, _, hp⟩ := List.mem_map.mp he
    rw [← hp]
    exact sessionRenderEntry_mk _ _ _ _ _ _
  · intro cs s hf hfile
    obtain ⟨s', hrun, hg, hl⟩ := runAppCalls_ok cs s (goodHist_of_fresh hf)
    rw [entriesOf_of_fresh hf, List.nil_append] at hl
    refine ⟨s', hrun, ?_⟩
    rw [appDisplay_of_good s' hg, hl]
    intro e he
    rw [hl] at he
    obtain ⟨p, hpmem, hp⟩ := List.mem_map.mp he
    rw [← hp]
    exact appRenderEntry_mk _ _ (hfile p hpmem)

/-- C1 (witness): the round-trip theorem applied to one concrete call of
each variant from the empty session state. -/
theorem history_roundtrip_witness :
    (∃ s', runSessionCalls [(sampleTime,
        ⟨"Legal Analysis", "contract.pdf", Option.none, Option.none, Option.none⟩)] [] =
        Except.ok s' ∧
      (sessionDisplayHistory s').2 = Except.ok
        [mkSessEntry sampleTime "Legal Analysis" "contract.pdf"
          Option.none Option.none Option.none]) ∧
    (∃ s', runAppCalls [(sampleTime,
        ⟨some "Data Analysis", some "sales.csv", Option.none, Option.none,
         Option.none, Option.none, Option.none, Option.none⟩)] [] =
        Except.ok s' ∧
      (appDisplayHistory s').2 = Except.ok
        [mkAppEntry sampleTime
          ⟨some "Data Analysis", some "sales.csv", Option.none, Option.none,
           Option.none, Option.none, Option.none, Option.none⟩]) := by
  constructor
  · obtain ⟨s', h1, h2⟩ := history_roundtrip.1
      [(sampleTime, ⟨"Legal Analysis", "contract.pdf", Option.none, Option.none, Option.none⟩)]
      [] (Or.inl rfl)
    exact ⟨s', h1, by simpa using h2⟩
  · obtain ⟨s', h1, h2⟩ := history_roundtrip.2
      [(sampleTime, ⟨some "Data Analysis", some "sales.csv", Option.none, Option.none,
        Option.none, Option.none, Option.none, Option.none⟩)]
      [] (Or.inl rfl) (by decide)
    exact ⟨s', h1, by simpa using h2⟩

/-- C4: `app.py`'s `add_to_history` called with neither `filename` nor
`file_name` drops the `file` key from the stored entry, and `app.py`'s
`display_history` then raises `KeyError: 'file'` when formatting
`entry['file']`: listing is not total over the entries recording can
produce. -/
theorem app_display_keyerror_on_fileless_entry :
    appAddToHistory sampleTime2
      ⟨Option.none, Option.none, Option.none, Option.none,
       Option.none, Option.none, Option.none, Option.none⟩ [] =
      Except.ok [("history", Value.entries
        [[("timestamp", EVal.str (formatTimestamp sampleTime2)),
          ("type", EVal.str "Data Analysis")]])] ∧
    (appDisplayHistory [("history", Value.entries
        [[("timestamp", EVal.str (formatTimestamp sampleTime2)),
          ("type", EVal.str "Data Analysis")]])]).2 =
      Except.error "KeyError: 'file'" :=
  ⟨rfl, rfl⟩

/-- C5: on a freshly created session (no `history` key, or `history`
initialized to the empty list) both `display_history` variants render an
empty enumeration and never raise. -/
theorem display_empty_on_fresh (s : Dict) (h : freshHist s) :
    (sessionDisplayHistory s).2 = Except.ok [] ∧
    (appDisplayHistory s).2 = Except.ok [] := by
  rcases h with h | h <;>
    exact ⟨by simp [sessionDisplayHistory, h, truthy],
           by simp [appDisplayHistory, h, truthy]⟩

/-- C5 (witness): the empty-display theorem at the state produced by
`init_session_state` on an empty session, where `history` is `[]`. -/
theorem display_empty_on_fresh_witness :
    (sessionDisplayHistory (initSessionState [])).2 = Except.ok [] ∧
    (appDisplayHistory (initSessionState [])).2 = Except.ok [] :=
  display_empty_on_fresh (initSessionState []) (Or.inr rfl)

/-- C6: every executed `add_to_history` call (either variant) appends
exactly one entry to the ledger: afterwards `history` holds the old
entries unchanged as a prefix followed by the one new entry, the length
grew by one, and an absent `history` key was first created empty. -/
theorem add_appends_exactly_one (t : DateTime) (et fn : String)
    (a q r : Option String) (c : AppCall) (s : Dict) (h : goodHist s) :
    (∃ s', sessionAddToHistory t et fn a q r s = Except.ok s' ∧
      dlookup "history" s' =
        some (Value.entries (entriesOf s ++ [mkSessEntry t et fn a q r])) ∧
      (entriesOf s').length = (entriesOf s).length + 1) ∧
    (∃ s', appAddToHistory t c s = Except.ok s' ∧
      dlookup "history" s' =
        some (Value.entries (entriesOf s ++ [mkAppEntry t c])) ∧
      (entriesOf s').length = (entriesOf s).length + 1) := by
  constructor
  · obtain ⟨s', h1, h2⟩ := appendHistory_ok (mkSessEntry t et fn a q r) s h
    refine ⟨s', h1, h2, ?_⟩
    rw [entriesOf_of_lookup h2]
    simp
  · obtain ⟨s', h1, h2⟩ := appendHistory_ok (mkAppEntry t c) s h
    refine ⟨s', h1, h2, ?_⟩
    rw [entriesOf_of_lookup h2]
    simp

/-- C6 (witness): the append theorem applied to a concrete call of each
variant on the empty session state, where `history` is lazily created. -/
theorem add_appends_exactly_one_witness :
    (∃ s', sessionAddToHistory sampleTime "Data Analysis" "sales.csv"
        Option.none Option.none Option.none [] = Except.ok s' ∧
      dlookup "history" s' = some (Value.entries (entriesOf [] ++
        [mkSessEntry sampleTime "Data Analysis" "sales.csv"
          Option.none Option.none Option.none])) ∧
      (entriesOf s').length = (entriesOf ([] : Dict)).length + 1) ∧
    (∃ s', appAddToHistory sampleTime
        ⟨some "Data Analysis", some "sales.csv", Option.none, Option.none,
         Option.none, Option.none, Option.none, Option.none⟩ [] = Except.ok s' ∧
      dlookup "history" s' = some (Value.entries (entriesOf [] ++
        [mkAppEntry sampleTime
          ⟨some "Data Analysis", some "sales.csv", Option.none, Option.none,
           Option.none, Option.none, Option.none, Option.none⟩])) ∧
      (entriesOf s').length = (entriesOf ([] : Dict)).length + 1) :=
  add_appends_exactly_one sampleTime "Data Analysis" "sales.csv"
    Option.none Option.none Option.none
    ⟨some "Data Analysis", some "sales.csv", Option.none, Option.none,
     Option.none, Option.none, Option.none, Option.none⟩ [] (Or.inl rfl)

/-- C7: neither `display_history` variant mutates session state: the
state component returned by the call is the state it was given. -/
theorem display_preserves_state (s : Dict) :
    (sessionDisplayHistory s).1 = s ∧ (appDisplayHistory s).1 = s :=
  ⟨rfl, rfl⟩

/-- C8: the entry appended by either `add_to_history` variant is the last
element of the ledger and carries as `timestamp` the current time
rendered by `strftime("%Y-%m-%d %H:%M:%S")`; that rendering is
second-resolution — it does not depend on the microsecond component. -/
theorem timestamp_second_resolution :
    (∀ (t : DateTime) (et fn : String) (a q r : Option String) (s : Dict),
      goodHist s →
      ∃ s', sessionAddToHistory t et fn a q r s = Except.ok s' ∧
        (entriesOf s').getLast? = some (mkSessEntry t et fn a q r) ∧
        elookup "timestamp" (mkSessEntry t et fn a q r) =
          some (EVal.str (formatTimestamp t))) ∧
    (∀ (t : DateTime) (c : AppCall) (s : Dict), goodHist s →
      ∃ s', appAddToHistory t c s = Except.ok s' ∧
        (entriesOf s').getLast? = some (mkAppEntry t c) ∧
        elookup "timestamp" (mkAppEntry t c) =
          some (EVal.str (formatTimestamp t))) ∧
    (∀ t t' : DateTime, t.year = t'.year → t.month = t'.month →
      t.day = t'.day → t.hour = t'.hour → t.minute = t'.minute →
      t.second = t'.second → formatTimestamp t = formatTimestamp t') := by
  refine ⟨?_, ?_, ?_⟩
  · intro t et fn a q r s h
    obtain ⟨s', h1, h2⟩ := appendHistory_ok (mkSessEntry t et fn a q r) s h
    refine ⟨s', h1, ?_, ?_⟩
    · rw [entriesOf_of_lookup h2]
      exact List.getLast?_concat _
    · simp [mkSessEntry, elookup]
  · intro t c s h
    obtain ⟨s', h1, h2⟩ := appendHistory_ok (mkAppEntry t c) s h
    refine ⟨s', h1, ?_, ?_⟩
    · rw [entriesOf_of_lookup h2]
      exact List.getLast?_concat _
    · exact elookup_timestamp_mkAppEntry t c
  · intro t t' h1 h2 h3 h4 h5 h6
    unfold formatTimestamp
    rw [h1, h2, h3, h4, h5, h6]

/-- C8 (witness): the timestamp theorem at concrete calls, plus two
concrete instants equal up to the second but differing in microseconds,
whose rendered timestamps agree. -/
theorem timestamp_second_resolution_witness :
    (∃ s', sessionAddToHistory sampleTime "A" "a.csv"
        Option.none Option.none Option.none [] = Except.ok s' ∧
      (entriesOf s').getLast? = some (mkSessEntry sampleTime "A" "a.csv"
        Option.none Option.none Option.none) ∧
      elookup "timestamp" (mkSessEntry sampleTime "A" "a.csv"
        Option.none Option.none Option.none) =
        some (EVal.str (formatTimestamp sampleTime))) ∧
    (∃ s', appAddToHistory sampleTime
        ⟨Option.none, some "b.csv", Option.none, Option.none, Option.none,
         Option.none, Option.none, Option.none⟩ [] = Except.ok s' ∧
      (entriesOf s').getLast? = some (mkAppEntry sampleTime
        ⟨Option.none, some "b.csv", Option.none, Option.none, Option.none,
         Option.none, Option.none, Option.none⟩) ∧
      elookup "timestamp" (mkAppEntry sampleTime
        ⟨Option.none, some "b.csv", Option.none, Option.none, Option.none,
         Option.none, Option.none, Option.none⟩) =
        some (EVal.str (formatTimestamp sampleTime))) ∧
    formatTimestamp sampleTime = formatTimestamp sampleTime2 :=
  ⟨timestamp_second_resolution.1 sampleTime "A" "a.csv"
      Option.none Option.none Option.none [] (Or.inl rfl),
   timestamp_second_resolution.2.1 sampleTime
      ⟨Option.none, some "b.csv", Option.none, Option.none, Option.none,
       Option.none, Option.none, Option.none⟩ [] (Or.inl rfl),
   timestamp_second_resolution.2.2 sampleTime sampleTime2
      rfl rfl rfl rfl rfl rfl⟩

/-- C2 (counterexample): `session.py`'s `add_to_history` called with only
`entry_type` and `file_name` stores the omitted optional fields as `None`
placeholders — the stored entry has a `query` key mapped to `None`. -/
theorem omitted_fields_counterexample :
    sessionAddToHistory sampleTime2 "Data Analysis" "sales.csv"
      Option.none Option.none Option.none [] =
      Except.ok [("history", Value.entries
        [[("timestamp", EVal.str (formatTimestamp sampleTime2)),
          ("type", EVal.str "Data Analysis"),
          ("file", EVal.str "sales.csv"),
          ("analysis_type", EVal.none),
          ("query", EVal.none),
          ("response", EVal.none)]])] ∧
    elookup "query"
      [("timestamp", EVal.str (formatTimestamp sampleTime2)),
       ("type", EVal.str "Data Analysis"),
       ("file", EVal.str "sales.csv"),
       ("analysis_type", EVal.none),
       ("query", EVal.none),
       ("response", EVal.none)] = some EVal.none :=
  ⟨rfl, rfl⟩

/-- C2 (amended): `app.py`'s `add_to_history` with only `entry_type` and
a non-empty `filename` stores an entry with exactly the keys `timestamp`,
`type` and `file` — omitted optional fields are absent; `session.py`'s
variant instead stores `None` placeholders for `analysis_type`, `query`
and `response`. -/
theorem omitted_fields_absent (t : DateTime) (et fn : String) (h : fn ≠ "") :
    appAddToHistory t
      ⟨some et, some fn, Option.none, Option.none, Option.none,
       Option.none, Option.none, Option.none⟩ [] =
      Except.ok [("history", Value.entries
        [[("timestamp", EVal.str (formatTimestamp t)),
          ("type", EVal.str et),
          ("file", EVal.str fn)]])] ∧
    sessionAddToHistory t et fn Option.none Option.none Option.none [] =
      Except.ok [("history", Value.entries
        [[("timestamp", EVal.str (formatTimestamp t)),
          ("type", EVal.str et),
          ("file", EVal.str fn),
          ("analysis_type", EVal.none),
          ("query", EVal.none),
          ("response", EVal.none)]])] := by
  constructor
  · have hp : pyOr (some fn) Option.none = some fn := by
      simp [pyOr, h]
    simp [appAddToHistory, appendHistory, mkAppEntry, hp, optFrag,
      dcontains, dlookup, dset]
  · rfl

/-- C2 (witness): the omission theorem at a concrete timestamp, entry
type and file name. -/
theorem omitted_fields_absent_witness :
    appAddToHistory sampleTime
      ⟨some "Data Analysis", some "sales.csv", Option.none, Option.none,
       Option.none, Option.none, Option.none, Option.none⟩ [] =
      Except.ok [("history", Value.entries
        [[("timestamp", EVal.str (formatTimestamp sampleTime)),
          ("type", EVal.str "Data Analysis"),
          ("file", EVal.str "sales.csv")]])] ∧
    sessionAddToHistory sampleTime "Data Analysis" "sales.csv"
      Option.none Option.none Option.none [] =
      Except.ok [("history", Value.entries
        [[("timestamp", EVal.str (formatTimestamp sampleTime)),
          ("type", EVal.str "Data Analysis"),
          ("file", EVal.str "sales.csv"),
          ("analysis_type", EVal.none),
          ("query", EVal.none),
          ("response", EVal.none)]])] :=
  omitted_fields_absent sampleTime "Data Analysis" "sales.csv" (by decide)

/-- C3 (counterexample): calling `session.py`'s `add_to_history` without
`entry_type` and `file_name` is rejected with a `TypeError` — no entry is
appended, contradicting "the call is accepted and never rejected". -/
theorem accepts_missing_counterexample :
    sessionCallAddToHistory sampleTime
      ⟨Option.none, Option.none, Option.none, Option.none, Option.none⟩ [] =
      Except.error "TypeError: add_to_history missing required argument" :=
  rfl

/-- C3 (amended): `app.py`'s `add_to_history` accepts every call,
including calls supplying no argument at all, and still appends one
entry; `session.py`'s variant rejects with `TypeError` any call omitting
`entry_type` or `file_name`, and `test_app.py`'s variant rejects any call
omitting one of its four required parameters. -/
theorem add_acceptance_by_variant :
    (∀ (t : DateTime) (c : AppCall) (s : Dict), goodHist s →
      ∃ s', appAddToHistory t c s = Except.ok s' ∧
        entriesOf s' = entriesOf s ++ [mkAppEntry t c]) ∧
    (∀ (t : DateTime) (c : SessRawCall) (s : Dict),
      c.entry_type = Option.none ∨ c.file_name = Option.none →
      sessionCallAddToHistory t c s =
        Except.error "TypeError: add_to_history missing required argument") ∧
    (∀ (t : DateTime) (c : TestRawCall) (s : Dict),
      c.entry_type = Option.none ∨ c.filename = Option.none ∨
        c.model = Option.none ∨ c.analysis_type = Option.none →
      testCallAddToHistory t c s =
        Except.error "TypeError: add_to_history missing required argument") := by
  refine ⟨?_, ?_, ?_⟩
  · intro t c s h
    obtain ⟨s', h1, h2⟩ := appendHistory_ok (mkAppEntry t c) s h
    exact ⟨s', h1, entriesOf_of_lookup h2⟩
  · intro t c s h
    obtain ⟨cet, cfn, ca, cq, cr⟩ := c
    rcases h with h | h
    · subst h
      cases cfn <;> rfl
    · subst h
      cases cet <;> rfl
  · intro t c s h
    obtain ⟨cet, cfn, cmo, can⟩ := c
    rcases h with h | h | h | h <;> subst h <;>
      first
        | rfl
        | (cases cet <;> first
            | rfl
            | (cases cfn <;> first
                | rfl
                | (cases cmo <;> rfl)))

/-- C3 (witness): the acceptance theorem at concrete calls: an `app.py`
call with every argument omitted is accepted, while the `session.py` and
`test_app.py` calls with all arguments omitted are rejected. -/
theorem add_acceptance_by_variant_witness :
    (∃ s', appAddToHistory sampleTime2
        ⟨Option.none, Option.none, Option.none, Option.none,
         Option.none, Option.none, Option.none, Option.none⟩ [] = Except.ok s' ∧
      entriesOf s' = entriesOf [] ++ [mkAppEntry sampleTime2
        ⟨Option.none, Option.none, Option.none, Option.none,
         Option.none, Option.none, Option.none, Option.none⟩]) ∧
    sessionCallAddToHistory sampleTime2
      ⟨Option.none, Option.none, Option.none, Option.none, Option.none⟩ [] =
      Except.error "TypeError: add_to_history missing required argument" ∧
    testCallAddToHistory sampleTime2
      ⟨Option.none, Option.none, Option.none, Option.none⟩ [] =
      Except.error "TypeError: add_to_history missing required argument" :=
  ⟨add_acceptance_by_variant.1 sampleTime2
      ⟨Option.none, Option.none, Option.none, Option.none,
       Option.none, Option.none, Option.none, Option.none⟩ [] (Or.inl rfl),
   add_acceptance_by_variant.2.1 sampleTime2
      ⟨Option.none, Option.none, Option.none, Option.none, Option.none⟩ [] (Or.inl rfl),
   add_acceptance_by_variant.2.2 sampleTime2
      ⟨Option.none, Option.none, Option.none, Option.none⟩ [] (Or.inl rfl)⟩

/-- C9: `clear_session` deletes every key of session state and re-runs
`init_session_state`, so the resulting state is exactly the default state
(`init_session_state` on an empty store), with `history` the empty list. -/
theorem clear_session_resets (s : Dict) :
    clearSession s = initSessionState [] ∧
    dlookup "history" (clearSession s) = some (Value.entries []) := by
  have h : clearSession s = initSessionState [] := by
    unfold clearSession
    rw [delAllKeys_eq_nil]
  refine ⟨h, ?_⟩
  rw [h]
  rfl

theorem dlookup_resetFold_not_mem (vars : List String) (s : Dict) (k : String)
    (h : k ∉ vars) : dlookup k (vars.foldl resetStep s) = dlookup k s := by
  induction vars generalizing s with
  | nil => rfl
  | cons v vs ih =>
    have hk : k ≠ v := fun e => h (e ▸ List.mem_cons_self v vs)
    have hvs : k ∉ vs := fun hm => h (List.mem_cons_of_mem v hm)
    simp only [List.foldl_cons]
    rw [ih _ hvs]
    unfold resetStep
    by_cases hc : dcontains v s = true
    · rw [if_pos hc]
      exact dlookup_derase_ne v k s hk
    · rw [if_neg hc]

theorem dlookup_resetStep_none (k v : String) (s : Dict)
    (h : dlookup k s = Option.none) :
    dlookup k (resetStep s v) = Option.none := by
  unfold resetStep
  by_cases hc : dcontains v s = true
  · rw [if_pos hc]
    by_cases hkv : k = v
    · subst hkv
      exact dlookup_derase_self k s
    · rw [dlookup_derase_ne v k s hkv]
      exact h
  · rw [if_neg hc]
    exact h

theorem dlookup_resetFold_none (vars : List String) (s : Dict) (k : String)
    (h : dlookup k s = Option.none) :
    dlookup k (vars.foldl resetStep s) = Option.none := by
  induction vars generalizing s with
  | nil => exact h
  | cons v vs ih =>
    simp only [List.foldl_cons]
    exact ih _ (dlookup_resetStep_none k v s h)

theorem dlookup_resetFold_mem (vars : List String) (s : Dict) (k : String)
    (h : k ∈ vars) : dlookup k (vars.foldl resetStep s) = Option.none := by
  induction vars generalizing s with
  | nil => cases h
  | cons v vs ih =>
    simp only [List.foldl_cons]
    by_cases hkv : k = v
    · subst hkv
      apply dlookup_resetFold_none
      unfold resetStep
      by_cases hc : dcontains k s = true
      · rw [if_pos hc]
        exact dlookup_derase_self k s
      · rw [if_neg hc]
        cases hd : dlookup k s with
        | none => rfl
        | some v' => exact absurd (by simp [dcontains, hd]) hc
    · have hvs : k ∈ vs := by
        rcases List.mem_cons.mp h with h' | h'
        · exact absurd h' hkv
        · exact h'
      exact ih _ hvs

/-- C10: `reset_model_state` and `reset_data_state` remove exactly their
listed keys: any other key — `history` in particular — keeps its value
unchanged, the listed keys are removed, and deleting an absent key is a
no-op rather than an error. -/
theorem reset_removes_only_listed (s : Dict) (k : String) :
    (k ∉ model_vars → dlookup k (resetModelState s) = dlookup k s) ∧
    (k ∈ model_vars → dlookup k (resetModelState s) = Option.none) ∧
    (k ∉ data_vars → dlookup k (resetDataState s) = dlookup k s) ∧
    (k ∈ data_vars → dlookup k (resetDataState s) = Option.none) ∧
    dlookup "history" (resetModelState s) = dlookup "history" s ∧
    dlookup "history" (resetDataState s) = dlookup "history" s :=
  ⟨fun h => dlookup_resetFold_not_mem model_vars s k h,
   fun h => dlookup_resetFold_mem model_vars s k h,
   fun h => dlookup_resetFold_not_mem data_vars s k h,
   fun h => dlookup_resetFold_mem data_vars s k h,
   dlookup_resetFold_not_mem model_vars s "history" (by decide),
   dlookup_resetFold_not_mem data_vars s "history" (by decide)⟩

/-- C10 (witness): the frame theorem on a concrete state holding
`current_page`, `history`, `model1` and `df`: the unlisted keys survive
both resets unchanged, the listed ones are removed, and resetting with
most listed keys absent raises nothing. -/
theorem reset_removes_only_listed_witness :
    dlookup "current_page"
      (resetModelState [("current_page", Value.str "Home Page"),
        ("history", Value.entries []), ("model1", Value.none), ("df", Value.obj 0)]) =
      dlookup "current_page" [("current_page", Value.str "Home Page"),
        ("history", Value.entries []), ("model1", Value.none), ("df", Value.obj 0)] ∧
    dlookup "model1"
      (resetModelState [("current_page", Value.str "Home Page"),
        ("history", Value.entries []), ("model1", Value.none), ("df", Value.obj 0)]) =
      Option.none ∧
    dlookup "df"
      (resetDataState [("current_page", Value.str "Home Page"),
        ("history", Value.entries []), ("model1", Value.none), ("df", Value.obj 0)]) =
      Option.none ∧
    dlookup "history"
      (resetDataState [("current_page", Value.str "Home Page"),
        ("history", Value.entries []), ("model1", Value.none), ("df", Value.obj 0)]) =
      dlookup "history" [("current_page", Value.str "Home Page"),
        ("history", Value.entries []), ("model1", Value.none), ("df", Value.obj 0)] :=
  ⟨(reset_removes_only_listed _ "current_page").1 (by decide),
   (reset_removes_only_listed _ "model1").2.1 (by decide),
   (reset_removes_only_listed _ "df").2.2.2.1 (by decide),
   (reset_removes_only_listed _ "history").2.2.2.2.2⟩
